import Mathlib

/-!
Shallow embedding of `src/bot.py` (pairsBot): the static forex-pair catalog,
the authorization gate, the sliding-window rate limiter, the command
dispatch with its decorator guards, and the button-callback dispatch.

Timestamps (`datetime.now().timestamp()`) are modelled as rationals,
Telegram user ids as integers, Python dicts as association lists or
explicit functions, and Telegram replies as a `Response` structure
(message text plus inline keyboard, a keyboard being rows of
(label, callback_data) buttons).
-/

/-- The `FOREX_PAIRS` dict of `bot.py` (insertion-ordered, so an
association list). -/
def FOREX_PAIRS : List (String × List String) :=
  [("Major", ["EUR/USD", "GBP/USD", "USD/JPY", "USD/CHF",
              "AUD/USD", "USD/CAD", "NZD/USD"]),
   ("Minor", ["EUR/GBP", "EUR/AUD", "EUR/CAD", "EUR/JPY",
              "GBP/JPY", "GBP/AUD", "AUD/JPY", "AUD/NZD"]),
   ("Exotic", ["USD/TRY", "USD/ZAR", "USD/MXN", "USD/SGD",
               "EUR/TRY", "GBP/ZAR", "USD/THB", "USD/HKD"])]

/-- Dict lookup `FOREX_PAIRS.get(k, [])` with default empty list. -/
def dictGet (k : String) : List String :=
  ((FOREX_PAIRS.find? (fun p => p.1 == k)).map Prod.snd).getD []

/-- A Telegram reply: message text plus inline keyboard
(rows of (label, callback_data) buttons). -/
structure Response where
  text : String
  keyboard : List (List (String × String))
deriving DecidableEq

/-- Bullet join `"• " + "\n• ".join(ps)` as used by the handlers. -/
def bulletJoin (ps : List String) : String :=
  "• " ++ String.intercalate "\n• " ps

/- ## Rate limiter (`rate_limit` in bot.py, lines 82-110) -/

/-- The pruning step of the `rate_limit` wrapper: keep exactly the stored
call times with `current_time - call_time < period`. -/
def rlPrune (period : ℚ) (now : ℚ) (ts : List ℚ) : List ℚ :=
  ts.filter (fun t => now - t < period)

/-- One guarded call of the `rate_limit` wrapper for a single identity:
prune, then reject (`false`) leaving only the pruned state if the
remaining count is `>= max_calls`, else append `now` and accept. -/
def rlAllow (maxCalls : ℕ) (period : ℚ) (ts : List ℚ) (now : ℚ) :
    Bool × List ℚ :=
  let pruned := rlPrune period now ts
  if maxCalls ≤ pruned.length then (false, pruned)
  else (true, pruned ++ [now])

/-- Repeated guarded calls for one identity: feed the call times in order
through `rlAllow`, collecting the accept/reject outcomes and the final
stored timestamp list. -/
def rlRun (maxCalls : ℕ) (period : ℚ) : List ℚ → List ℚ → List Bool × List ℚ
  | s, [] => ([], s)
  | s, now :: rest =>
    let r := rlAllow maxCalls period s now
    let k := rlRun maxCalls period r.2 rest
    (r.1 :: k.1, k.2)

example : (rlRun 2 60 [] [0, 1, 2, 100]).1 = [true, true, false, true] := by
  norm_num [rlRun, rlAllow, rlPrune, List.filter]

example : (rlRun 2 60 [] [0, 1, 2, 100]).2 = [100] := by
  norm_num [rlRun, rlAllow, rlPrune, List.filter]

/- ## Authorization gate (`authorized_only`, lines 58-80) -/

/-- The access predicate of `authorized_only`: the wrapper denies when
`AUTHORIZED_USERS and user_id not in AUTHORIZED_USERS` (a Python set is
truthy iff non-empty), so the identity is authorized iff the set is empty
or contains it. -/
def is_authorized (auth : Finset ℤ) (uid : ℤ) : Bool :=
  if auth.Nonempty ∧ uid ∉ auth then false else true

/- ## Message texts and keyboards -/

/-- Keyboard shown by `/start` and by the `back_to_menu` callback. -/
def mainMenuKeyboard : List (List (String × String)) :=
  [[("💰 Major Pairs", "major"), ("📊 Minor Pairs", "minor")],
   [("🌐 Exotic Pairs", "exotic"), ("🎲 Random Pair", "random")],
   [("📈 All Pairs", "all")]]

/-- The single-button back-to-menu keyboard. -/
def backKeyboard : List (List (String × String)) :=
  [[("🔙 Back to Menu", "back_to_menu")]]

/-- The fixed reply of `authorized_only` on denial. -/
def accessDeniedResponse : Response :=
  ⟨"⛔ *Access Denied*\n\nYou are not authorized to use this bot.\nPlease contact the administrator.", []⟩

/-- The fixed reply of the `rate_limit` wrapper on rejection. -/
def rateLimitResponse : Response :=
  ⟨"⏳ Rate limit exceeded. Please wait before trying again.", []⟩

/-- Total count `sum(len(pairs) for pairs in FOREX_PAIRS.values())`. -/
def totalPairs : ℕ := (FOREX_PAIRS.map (fun p => p.2.length)).sum

/-- Flattened list `all_pairs = [pair for pairs in FOREX_PAIRS.values() for pair in pairs]`. -/
def allPairs : List String := (FOREX_PAIRS.map Prod.snd).flatten

/-- Category resolution `next(cat for cat, pairs in FOREX_PAIRS.items() if selected_pair in pairs)`:
the first category whose symbol list contains `sel`. -/
def ownerCategory (sel : String) : String :=
  ((FOREX_PAIRS.find? (fun p => p.2.contains sel)).map Prod.fst).getD ""

/-- Reply of the `start` handler body (welcome text, menu keyboard). -/
def startResponse (firstName : String) : Response :=
  ⟨"👋 *Welcome to Forex Pairs Bot, " ++ firstName ++ "!*\n\n"
    ++ "🌍 *Available Commands:*\n"
    ++ "• /start - Show this welcome message\n"
    ++ "• /pairs - View all forex pairs by category\n"
    ++ "• /major - Get major currency pairs\n"
    ++ "• /minor - Get minor currency pairs\n"
    ++ "• /exotic - Get exotic currency pairs\n"
    ++ "• /random - Get a random forex pair suggestion\n"
    ++ "• /stats - View bot statistics\n"
    ++ "• /help - Get detailed help information\n\n"
    ++ "🔒 *Security Features:*\n"
    ++ "✓ Rate limiting enabled\n"
    ++ "✓ Access control active\n"
    ++ "✓ All requests logged\n\n"
    ++ "Select a category below to get started!", mainMenuKeyboard⟩

/-- Message built by the `pairs` handler: header, then one block per
catalog category in dict order, then the total count. -/
def pairsMessage : String :=
  FOREX_PAIRS.foldl
    (fun acc p => acc ++ "*" ++ p.1 ++ " Pairs:*\n" ++ bulletJoin p.2 ++ "\n\n")
    "📊 *Forex Pairs by Category*\n\n"
  ++ "_Total pairs: " ++ toString totalPairs ++ "_"

/-- Reply of the `pairs` handler (no keyboard attached). -/
def pairsResponse : Response := ⟨pairsMessage, []⟩

/-- Python `str.capitalize()` for the ASCII strings used here: first
character uppercased, the rest lowercased. -/
def pyCapitalize (s : String) : String :=
  match s.data with
  | [] => ""
  | c :: rest => String.mk (c.toUpper :: rest.map Char.toLower)

/-- Handler `get_category_pairs` (lines 170-189): look the capitalized name
up in the catalog; "Category not found." on a miss, else the symbol list
with a count and a back-to-menu keyboard. -/
def get_category_pairs (category : String) : Response :=
  let pairs := dictGet (pyCapitalize category)
  if pairs.isEmpty then ⟨"Category not found.", []⟩
  else
    ⟨"*" ++ pyCapitalize category ++ " Currency Pairs:*\n\n" ++ bulletJoin pairs
      ++ "\n\n_Total: " ++ toString pairs.length ++ " pairs_", backKeyboard⟩

/-- Reply of the `random_pair` handler; the uniform draw of
`random.choice(all_pairs)` is modelled by the index `pick` into
`all_pairs`. -/
def randomResponse (pick : ℕ) : Response :=
  let selected := allPairs.getD pick ""
  ⟨"🎲 *Random Pair Selection*\n\nPair: *" ++ selected ++ "*\nCategory: _"
    ++ ownerCategory selected ++ "_\n\nGood luck with your trading! 📈",
   [[("🎲 Get Another", "random")]]⟩

/-- Reply of the `stats` handler; `nowStr` is the formatted
`datetime.now().strftime(...)` server-time string. -/
def statsResponse (nowStr : String) : Response :=
  ⟨"📊 *Bot Statistics*\n\nMajor Pairs: " ++ toString (dictGet "Major").length
    ++ "\nMinor Pairs: " ++ toString (dictGet "Minor").length
    ++ "\nExotic Pairs: " ++ toString (dictGet "Exotic").length
    ++ "\nTotal Pairs: " ++ toString totalPairs
    ++ "\n\n🕐 Server Time: " ++ nowStr
    ++ "\n✅ Bot Status: Online (Polling Mode)\n🔄 Mode: Long Polling", []⟩

/-- Reply of the `help_command` handler. -/
def helpResponse : Response :=
  ⟨"🔍 *Forex Pairs Bot - Help Guide*\n\n"
    ++ "*What does this bot do?*\n"
    ++ "This bot provides organized access to forex currency pairs "
    ++ "categorized into Major, Minor, and Exotic pairs.\n\n"
    ++ "*Command Reference:*\n"
    ++ "• `/start` - Initialize bot and show main menu\n"
    ++ "• `/pairs` - Display all pairs organized by category\n"
    ++ "• `/major` - Show major currency pairs (most liquid)\n"
    ++ "• `/minor` - Show minor currency pairs (cross pairs)\n"
    ++ "• `/exotic` - Show exotic currency pairs (emerging markets)\n"
    ++ "• `/random` - Get a random pair suggestion\n"
    ++ "• `/stats` - View bot statistics\n"
    ++ "• `/help` - Show this help message\n\n"
    ++ "*Pair Categories Explained:*\n"
    ++ "📌 *Major Pairs* - Most traded pairs involving USD\n"
    ++ "📌 *Minor Pairs* - Cross currency pairs without USD\n"
    ++ "📌 *Exotic Pairs* - Pairs with emerging market currencies\n\n"
    ++ "*Security:*\n"
    ++ "• Rate limiting: 10 requests per minute\n"
    ++ "• All access attempts are logged\n"
    ++ "• Optional user authorization available\n\n"
    ++ "Need assistance? Contact the administrator.", []⟩


/- ## Command dispatch (`main`, lines 370-378, with the decorator guards) -/

/-- The eight registered bot commands. -/
inductive Cmd
  | start | pairs | major | minor | exotic | random | stats | help
deriving DecidableEq

/-- Per-event environment supplied by the transport and the clock: the
sender's id and first name, the wall-clock timestamp used by the rate
limiter, the formatted server-time string used by `stats`, and the index
drawn by `random.choice`. -/
structure Env where
  uid : ℤ
  firstName : String
  now : ℚ
  nowStr : String
  pick : ℕ

/-- Rate-limiter state of the single `rate_limit(max_calls=10, period=60)`
closure (the `calls` dict): stored timestamps per identity. -/
def RLState := ℤ → List ℚ

/-- The empty `calls` dict (every identity maps to no timestamps, matching
the lazily-created-empty-list semantics). -/
def emptyRL : RLState := fun _ => []

/-- Dispatch of one command event, exactly as the handlers are registered
in `main`: `start` is wrapped by `authorized_only` around
`rate_limit(max_calls=10, period=60)`; the seven other commands are
registered with their bare handlers. Returns the replies sent and the
`calls` dict afterwards. -/
def dispatch (auth : Finset ℤ) (env : Env) (cmd : Cmd) (calls : RLState) :
    List Response × RLState :=
  match cmd with
  | .start =>
    if is_authorized auth env.uid then
      let r := rlAllow 10 60 (calls env.uid) env.now
      let calls' : RLState := fun i => if i = env.uid then r.2 else calls i
      if r.1 then ([startResponse env.firstName], calls')
      else ([rateLimitResponse], calls')
    else ([accessDeniedResponse], calls)
  | .pairs => ([pairsResponse], calls)
  | .major => ([get_category_pairs "Major"], calls)
  | .minor => ([get_category_pairs "Minor"], calls)
  | .exotic => ([get_category_pairs "Exotic"], calls)
  | .random => ([randomResponse env.pick], calls)
  | .stats => ([statsResponse env.nowStr], calls)
  | .help => ([helpResponse], calls)

/- ## Button callbacks (`button_callback`, lines 276-325) -/

/-- Dispatch of one menu-selection token, following the `if/elif` chain of
`button_callback`; `pick` models the `random.choice` draw for the
`random` branch. The `back_to_menu` branch renders the menu and returns
early; every other branch gets the back-to-menu keyboard attached. -/
def button_callback (token : String) (pick : ℕ) : Response :=
  if token = "major" then
    ⟨"*Major Currency Pairs:*\n\n" ++ bulletJoin (dictGet "Major"), backKeyboard⟩
  else if token = "minor" then
    ⟨"*Minor Currency Pairs:*\n\n" ++ bulletJoin (dictGet "Minor"), backKeyboard⟩
  else if token = "exotic" then
    ⟨"*Exotic Currency Pairs:*\n\n" ++ bulletJoin (dictGet "Exotic"), backKeyboard⟩
  else if token = "all" then
    ⟨FOREX_PAIRS.foldl
      (fun acc p => acc ++ "*" ++ p.1 ++ ":*\n" ++ bulletJoin p.2 ++ "\n\n")
      "📊 *All Forex Pairs*\n\n", backKeyboard⟩
  else if token = "random" then
    let selected := allPairs.getD pick ""
    ⟨"🎲 *Random Pair*\n\n" ++ selected ++ "\nCategory: _"
      ++ ownerCategory selected ++ "_", backKeyboard⟩
  else if token = "back_to_menu" then
    ⟨"Select a category:", mainMenuKeyboard⟩
  else
    ⟨"Unknown option", backKeyboard⟩

/- ## Startup parsing of AUTHORIZED_USERS (`main`, lines 355-359) -/

/-- Python whitespace strip of `str.strip()` (ASCII whitespace). -/
def pyStrip (s : String) : String :=
  String.mk (((s.data.dropWhile Char.isWhitespace).reverse.dropWhile
    Char.isWhitespace).reverse)

/-- Tail of a Python integer-literal digit run: digits, with single
underscores allowed only between digits. -/
def digitsTail : List Char → Bool
  | [] => true
  | c :: rest =>
    if c = '_' then
      match rest with
      | [] => false
      | d :: rest2 => d.isDigit && digitsTail rest2
    else c.isDigit && digitsTail rest

/-- Digit run of a Python integer literal: non-empty, starts with a digit,
then `digitsTail`. -/
def digitsOk : List Char → Bool
  | [] => false
  | c :: rest => c.isDigit && digitsTail rest

/-- Numeric value of a digit run, ignoring underscores. -/
def digitsVal (cs : List Char) : ℤ :=
  (cs.filter (fun c => c ≠ '_')).foldl (fun n c => 10 * n + (c.toNat - 48)) 0

/-- Python `int(s)` on a string: strip whitespace, optional sign, then a
valid digit run; `none` models the `ValueError` raised otherwise. -/
def pyIntOfString (s : String) : Option ℤ :=
  match (pyStrip s).data with
  | '+' :: rest => if digitsOk rest then some (digitsVal rest) else none
  | '-' :: rest => if digitsOk rest then some (-digitsVal rest) else none
  | rest => if digitsOk rest then some (digitsVal rest) else none

/-- The generator consumed by `AUTHORIZED_USERS.update(...)`: walk the
split entries; an entry with a falsy `strip()` is skipped, otherwise
`int(entry)` either yields a member or raises (modelled as `.error` with
the offending entry, which aborts startup). -/
def updateAuth : Finset ℤ → List String → Except String (Finset ℤ)
  | acc, [] => .ok acc
  | acc, e :: rest =>
    if pyStrip e = "" then updateAuth acc rest
    else
      match pyIntOfString e with
      | some n => updateAuth (insert n acc) rest
      | none => .error e

/-- Character-level split, the semantics of Python `s.split(',')`: the
empty string gives one empty field, and every separator starts a new
field. -/
def splitOnChar (sep : Char) : List Char → List (List Char)
  | [] => [[]]
  | c :: rest =>
    match splitOnChar sep rest with
    | [] => [[]]
    | g :: gs => if c = sep then [] :: g :: gs else (c :: g) :: gs

/-- Python `auth_users.split(',')`. -/
def pySplitComma (s : String) : List String :=
  (splitOnChar ',' s.data).map String.mk

/-- Loading of the `AUTHORIZED_USERS` environment variable in `main`: an
empty (falsy) string skips the whole block, otherwise the comma-split
entries are folded through `updateAuth`. -/
def loadAuthorized (s : String) : Except String (Finset ℤ) :=
  if s = "" then .ok ∅ else updateAuth ∅ (pySplitComma s)

example :
    (loadAuthorized "12, 34 ,,").toOption.map (fun A => (decide (12 ∈ A), decide (34 ∈ A), A.card))
      = some (true, true, 2) := by decide
example : loadAuthorized "12,abc,34" = .error "abc" := rfl

/- ## Theorems -/

/-- Claim C5: the authorization predicate returns true for every identity
when the authorized set is empty, and otherwise returns true iff the
identity is a member of the set; it has no other dependence on the
identity. -/
theorem C5_is_authorized_spec (auth : Finset ℤ) (uid : ℤ) :
    (auth = ∅ → is_authorized auth uid = true) ∧
    (auth ≠ ∅ → (is_authorized auth uid = true ↔ uid ∈ auth)) := by
  constructor
  · intro h
    simp [is_authorized, h]
  · intro h
    by_cases hm : uid ∈ auth <;>
      simp [is_authorized, Finset.nonempty_iff_ne_empty, h, hm]

/-- Witness for C5 at concrete inputs. -/
theorem C5_is_authorized_spec_witness :
    is_authorized ∅ 7 = true ∧ is_authorized {3} 4 = false := by
  constructor
  · exact (C5_is_authorized_spec ∅ 7).1 rfl
  · have h := (C5_is_authorized_spec {3} 4).2 (by decide)
    simpa using h

/-- Claim C9: every menu-selection token outside
{major, minor, exotic, all, random, back_to_menu} yields the
"Unknown option" response with the back-to-menu keyboard attached
(and the dispatch is a total function, so no fatal error). -/
theorem C9_unknown_token (token : String) (pick : ℕ)
    (h : token ∉ (["major", "minor", "exotic", "all", "random",
                   "back_to_menu"] : List String)) :
    button_callback token pick = ⟨"Unknown option", backKeyboard⟩ := by
  simp only [List.mem_cons, List.not_mem_nil, or_false, not_or] at h
  obtain ⟨h1, h2, h3, h4, h5, h6⟩ := h
  simp [button_callback, h1, h2, h3, h4, h5, h6]

/-- Witness for C9 at the concrete token "zzz". -/
theorem C9_unknown_token_witness :
    ("zzz" : String) ∉ (["major", "minor", "exotic", "all", "random",
                         "back_to_menu"] : List String) ∧
    button_callback "zzz" 0 = ⟨"Unknown option", backKeyboard⟩ :=
  ⟨by decide, C9_unknown_token "zzz" 0 (by decide)⟩

/-- Claim C4 as stated is false: the response rendered for the
menu-selection token "random" is not determined by the token and catalog
alone — two different draws of `random.choice` give different contents. -/
theorem C4_counterexample :
    button_callback "random" 0 ≠ button_callback "random" 1 := by
  decide

/-- Claim C4, amended: for every menu-selection token other than "random",
the rendered response is fully determined by the token and the catalog
snapshot (re-rendering with any two draws gives identical content); the
"random" token's content additionally depends on the uniform draw. No
server-held menu state exists in either case. -/
theorem C4_stateless_render (token : String) (p q : ℕ)
    (h : token ≠ "random") :
    button_callback token p = button_callback token q := by
  unfold button_callback
  split_ifs <;> simp_all

/-- Witness for the amended C4 at the concrete token "major". -/
theorem C4_stateless_render_witness :
    ("major" : String) ≠ "random" ∧
    button_callback "major" 0 = button_callback "major" 1 :=
  ⟨by decide, C4_stateless_render "major" 0 1 (by decide)⟩

/-- Claim C1 as stated is false: with the non-empty authorized set {1},
the unauthorized identity 99 issuing the pairs command still receives the
full pairs listing — the handler runs and its reply is not the
access-denied response (only the start command is wrapped in
`authorized_only`). -/
theorem C1_counterexample :
    (dispatch {1} ⟨99, "Eve", 0, "now", 0⟩ Cmd.pairs emptyRL).1
      = [pairsResponse] ∧
    pairsResponse ≠ accessDeniedResponse := by
  constructor
  · rfl
  · decide

/-- Claim C1, amended: only the entry command start is guarded by the
access gate. For every identity not in a non-empty authorized set, start
yields the fixed access-denied response with the rate-limiter state left
untouched, while each of the seven other commands still invokes its
handler and returns that handler's reply unconditionally. -/
theorem C1_only_start_gated (auth : Finset ℤ) (env : Env) (calls : RLState)
    (hne : auth.Nonempty) (hmem : env.uid ∉ auth) :
    dispatch auth env Cmd.start calls = ([accessDeniedResponse], calls) ∧
    dispatch auth env Cmd.pairs calls = ([pairsResponse], calls) ∧
    dispatch auth env Cmd.major calls = ([get_category_pairs "Major"], calls) ∧
    dispatch auth env Cmd.minor calls = ([get_category_pairs "Minor"], calls) ∧
    dispatch auth env Cmd.exotic calls = ([get_category_pairs "Exotic"], calls) ∧
    dispatch auth env Cmd.random calls = ([randomResponse env.pick], calls) ∧
    dispatch auth env Cmd.stats calls = ([statsResponse env.nowStr], calls) ∧
    dispatch auth env Cmd.help calls = ([helpResponse], calls) := by
  refine ⟨?_, rfl, rfl, rfl, rfl, rfl, rfl, rfl⟩
  simp [dispatch, is_authorized, hne, hmem]

/-- Witness for the amended C1 at concrete inputs. -/
theorem C1_only_start_gated_witness :
    ({1} : Finset ℤ).Nonempty ∧ (99 : ℤ) ∉ ({1} : Finset ℤ) ∧
    dispatch {1} ⟨99, "Eve", 0, "now", 0⟩ Cmd.start emptyRL
      = ([accessDeniedResponse], emptyRL) :=
  ⟨Finset.singleton_nonempty 1, by decide,
   (C1_only_start_gated {1} ⟨99, "Eve", 0, "now", 0⟩ emptyRL
     (Finset.singleton_nonempty 1) (by decide)).1⟩

/-- Claim C6: when the access gate denies an identity on the start
command, the rate limiter is not invoked — the reply is exactly the
access-denied response and the `calls` dict is returned unchanged for
every identity. -/
theorem C6_denied_start_keeps_rl_state (auth : Finset ℤ) (env : Env)
    (calls : RLState) (hne : auth.Nonempty) (hmem : env.uid ∉ auth) :
    (dispatch auth env Cmd.start calls).1 = [accessDeniedResponse] ∧
    (dispatch auth env Cmd.start calls).2 = calls := by
  simp [dispatch, is_authorized, hne, hmem]

/-- Witness for C6 at concrete inputs. -/
theorem C6_denied_start_keeps_rl_state_witness :
    ({5} : Finset ℤ).Nonempty ∧ (42 : ℤ) ∉ ({5} : Finset ℤ) ∧
    ((dispatch {5} ⟨42, "Eve", 1, "now", 0⟩ Cmd.start emptyRL).1
        = [accessDeniedResponse] ∧
      (dispatch {5} ⟨42, "Eve", 1, "now", 0⟩ Cmd.start emptyRL).2 = emptyRL) :=
  ⟨Finset.singleton_nonempty 5, by decide,
   C6_denied_start_keeps_rl_state {5} ⟨42, "Eve", 1, "now", 0⟩ emptyRL
     (Finset.singleton_nonempty 5) (by decide)⟩

set_option maxRecDepth 4000 in
/-- Claim C8: the pairs listing covers every catalog category exactly
once, in insertion order, each with its symbols in catalog order, and
ends with the total count 7 + 8 + 8 = 23; the rendered message is the
catalog spelled out block by block. -/
theorem C8_pairs_lists_all :
    FOREX_PAIRS.map Prod.fst = ["Major", "Minor", "Exotic"] ∧
    (FOREX_PAIRS.map Prod.fst).Nodup ∧
    FOREX_PAIRS.map (fun p => p.2.length) = [7, 8, 8] ∧
    totalPairs = 7 + 8 + 8 ∧
    pairsMessage =
      "📊 *Forex Pairs by Category*\n\n"
        ++ "*Major Pairs:*\n• EUR/USD\n• GBP/USD\n• USD/JPY\n• USD/CHF\n"
        ++ "• AUD/USD\n• USD/CAD\n• NZD/USD\n\n"
        ++ "*Minor Pairs:*\n• EUR/GBP\n• EUR/AUD\n• EUR/CAD\n• EUR/JPY\n"
        ++ "• GBP/JPY\n• GBP/AUD\n• AUD/JPY\n• AUD/NZD\n\n"
        ++ "*Exotic Pairs:*\n• USD/TRY\n• USD/ZAR\n• USD/MXN\n• USD/SGD\n"
        ++ "• EUR/TRY\n• GBP/ZAR\n• USD/THB\n• USD/HKD\n\n"
        ++ "_Total pairs: 23_" := by
  refine ⟨rfl, by decide, rfl, rfl, ?_⟩
  decide

/-- Application of a casing mask to a character list: `true` uppercases
the character at that position, `false` lowercases it. -/
def applyCase : List Bool → List Char → List Char
  | _, [] => []
  | [], cs => cs
  | b :: bs, c :: cs => (if b then c.toUpper else c.toLower) :: applyCase bs cs

/-- A casing of `s` selected by the mask `m` (one bit per character). -/
def caseVariant (m : List Bool) (s : String) : String :=
  String.mk (applyCase m s.data)

set_option maxRecDepth 8000 in
/-- Claim C7: for every casing of an existing category name the
list-category handler resolves to the same catalog entry and returns the
same response (shown for all 2^5 casings of "major" and "minor" and all
2^6 casings of "exotic"), the three quoted spellings of "major" agree,
and an unknown name gets the "Category not found." reply instead of a
fatal error. -/
theorem C7_case_insensitive_categories :
    (∀ m : Fin 5 → Bool,
      get_category_pairs (caseVariant (List.ofFn m) "major")
        = get_category_pairs "major") ∧
    (∀ m : Fin 5 → Bool,
      get_category_pairs (caseVariant (List.ofFn m) "minor")
        = get_category_pairs "minor") ∧
    (∀ m : Fin 6 → Bool,
      get_category_pairs (caseVariant (List.ofFn m) "exotic")
        = get_category_pairs "exotic") ∧
    get_category_pairs "major" = get_category_pairs "Major" ∧
    get_category_pairs "Major" = get_category_pairs "MAJOR" ∧
    get_category_pairs "unknown" = ⟨"Category not found.", []⟩ := by
  decide

/-- Success observer on `Except` (true on `.ok`). -/
def exceptOk {ε α : Type} : Except ε α → Bool
  | .ok _ => true
  | .error _ => false

lemma updateAuth_ok_iff (l : List String) : ∀ acc : Finset ℤ,
    exceptOk (updateAuth acc l) = true ↔
      ∀ e ∈ l, pyStrip e ≠ "" → (pyIntOfString e).isSome = true := by
  induction l with
  | nil => intro acc; simp [updateAuth, exceptOk]
  | cons e rest ih =>
    intro acc
    by_cases hs : pyStrip e = ""
    · simp [updateAuth, hs, ih]
    · cases hp : pyIntOfString e with
      | some n => simp [updateAuth, hs, hp, ih]
      | none =>
        simp only [updateAuth, hs, hp]
        constructor
        · intro h; cases h
        · intro h
          have := h e (List.mem_cons_self e rest) hs
          rw [hp] at this
          cases this

/-- Claim C3 as stated is false: an authorized-identity entry that cannot
be parsed as an integer is not skipped with a warning — `int("abc")`
raises, so startup aborts on the malformed entry. -/
theorem C3_counterexample :
    loadAuthorized "12,abc,34" = Except.error "abc" := rfl

/-- Claim C3, amended: startup parsing of the comma-separated
authorized-identity list silently skips entries that strip to the empty
string, and succeeds exactly when every remaining entry parses as an
integer; a non-blank entry that cannot be parsed as an integer raises
and aborts startup (an absent/empty configuration means open access). -/
theorem C3_parse_abort_characterization :
    (∀ s : String,
      exceptOk (loadAuthorized s) = true ↔
        ∀ e ∈ pySplitComma s, pyStrip e ≠ "" → (pyIntOfString e).isSome = true) ∧
    loadAuthorized "" = Except.ok ∅ ∧
    (loadAuthorized "12, 34 ,,").toOption.map
        (fun A => (decide (12 ∈ A), decide (34 ∈ A), A.card))
      = some (true, true, 2) ∧
    loadAuthorized "7,x8" = Except.error "x8" := by
  refine ⟨?_, rfl, by decide, rfl⟩
  intro s
  by_cases h0 : s = ""
  · subst h0
    constructor
    · intro _ e he
      simp [pySplitComma, splitOnChar] at he
      subst he
      intro hne
      exact absurd rfl hne
    · intro _
      rfl
  · simp only [loadAuthorized, h0, if_false]
    exact updateAuth_ok_iff (pySplitComma s) ∅

lemma rlPrune_keep_all {period now : ℚ} {ts : List ℚ}
    (h : ∀ t ∈ ts, now - t < period) : rlPrune period now ts = ts :=
  List.filter_eq_self.mpr fun t ht => by simpa using h t ht

lemma rlPrune_cons_drop {period now t : ℚ} {ts : List ℚ}
    (h : period ≤ now - t) :
    rlPrune period now (t :: ts) = rlPrune period now ts := by
  simp [rlPrune, List.filter_cons, show ¬(now - t < period) from not_lt.mpr h]

lemma rlAllow_accept {maxCalls : ℕ} {period now : ℚ} {ts : List ℚ}
    (h : (rlPrune period now ts).length < maxCalls) :
    rlAllow maxCalls period ts now = (true, rlPrune period now ts ++ [now]) := by
  simp [rlAllow, Nat.not_le.mpr h]

lemma rlAllow_reject {maxCalls : ℕ} {period now : ℚ} {ts : List ℚ}
    (h : maxCalls ≤ (rlPrune period now ts).length) :
    rlAllow maxCalls period ts now = (false, rlPrune period now ts) := by
  simp [rlAllow, h]

lemma rlRun_accepts_all {maxCalls : ℕ} {period : ℚ} :
    ∀ (ts s : List ℚ),
      s.length + ts.length ≤ maxCalls →
      (∀ x ∈ ts, ∀ t ∈ s, x - t < period) →
      List.Pairwise (fun x y => y - x < period) ts →
      rlRun maxCalls period s ts = (List.replicate ts.length true, s ++ ts) := by
  intro ts
  induction ts with
  | nil => intro s _ _ _; simp [rlRun]
  | cons now rest ih =>
    intro s hlen hcross hpw
    have hkeep : rlPrune period now s = s :=
      rlPrune_keep_all fun t ht => hcross now (List.mem_cons_self now rest) t ht
    have hlt : (rlPrune period now s).length < maxCalls := by
      rw [hkeep]
      simp only [List.length_cons] at hlen
      omega
    have hacc := rlAllow_accept hlt
    rw [hkeep] at hacc
    obtain ⟨hpw1, hpw2⟩ := List.pairwise_cons.mp hpw
    have hlen' : (s ++ [now]).length + rest.length ≤ maxCalls := by
      simp only [List.length_append, List.length_singleton, List.length_cons,
        List.length_nil] at hlen ⊢
      omega
    have hcross' : ∀ x ∈ rest, ∀ t ∈ s ++ [now], x - t < period := by
      intro x hx t ht
      rcases List.mem_append.mp ht with h1 | h1
      · exact hcross x (List.mem_cons_of_mem now hx) t h1
      · have ht' : t = now := by simpa using h1
        subst ht'
        exact hpw1 x hx
    have hrec := ih (s ++ [now]) hlen' hcross' hpw2
    simp only [rlRun, hacc, hrec]
    simp [List.replicate_succ, List.append_assoc]

lemma rlRun_append (maxCalls : ℕ) (period : ℚ) (s ts1 ts2 : List ℚ) :
    rlRun maxCalls period s (ts1 ++ ts2)
      = ((rlRun maxCalls period s ts1).1
           ++ (rlRun maxCalls period (rlRun maxCalls period s ts1).2 ts2).1,
         (rlRun maxCalls period (rlRun maxCalls period s ts1).2 ts2).2) := by
  induction ts1 generalizing s with
  | nil => simp [rlRun]
  | cons a l ih => simp [rlRun, ih]

/-- Claim C2: `allow` prunes every timestamp `t` with `now - t >= period`,
rejects iff the remaining count is at least `max_calls` (state then being
exactly the pruned list), and otherwise appends `now` and accepts; with
`max_calls = 10, period = 60`, for one identity under monotone time the
1st through 10th calls inside a 60-second window are accepted, the 11th
inside the window is rejected, and a later call more than 60 seconds
after the earliest one is accepted again. -/
theorem C2_sliding_window
    (t1 t2 t3 t4 t5 t6 t7 t8 t9 t10 t11 t12 : ℚ)
    (h1 : t1 ≤ t2) (h2 : t2 ≤ t3) (h3 : t3 ≤ t4) (h4 : t4 ≤ t5)
    (h5 : t5 ≤ t6) (h6 : t6 ≤ t7) (h7 : t7 ≤ t8) (h8 : t8 ≤ t9)
    (h9 : t9 ≤ t10) (h10 : t10 ≤ t11) (h11 : t11 ≤ t12)
    (hwin : t11 - t1 < 60) (hpast : 60 < t12 - t1) :
    (∀ (s : List ℚ) (now : ℚ),
        rlAllow 10 60 s now =
          if 10 ≤ (rlPrune 60 now s).length then (false, rlPrune 60 now s)
          else (true, rlPrune 60 now s ++ [now])) ∧
    (rlRun 10 60 [] [t1, t2, t3, t4, t5, t6, t7, t8, t9, t10, t11, t12]).1
      = [true, true, true, true, true, true, true, true, true, true,
         false, true] := by
  refine ⟨fun s now => rfl, ?_⟩
  have hbnd : ∀ x ∈ [t1, t2, t3, t4, t5, t6, t7, t8, t9, t10],
      t1 ≤ x ∧ x ≤ t10 := by
    intro x hx
    simp only [List.mem_cons, List.not_mem_nil, or_false] at hx
    rcases hx with rfl|rfl|rfl|rfl|rfl|rfl|rfl|rfl|rfl|rfl <;>
      exact ⟨by linarith, by linarith⟩
  have hpw : List.Pairwise (fun x y => y - x < (60:ℚ))
      [t1, t2, t3, t4, t5, t6, t7, t8, t9, t10] :=
    List.pairwise_of_forall_mem_list fun a ha b hb => by
      obtain ⟨ha1, _⟩ := hbnd a ha
      obtain ⟨_, hb2⟩ := hbnd b hb
      linarith
  have hrun10 : rlRun 10 60 [] [t1, t2, t3, t4, t5, t6, t7, t8, t9, t10]
      = (List.replicate 10 true, [t1, t2, t3, t4, t5, t6, t7, t8, t9, t10]) := by
    simpa using
      rlRun_accepts_all [t1, t2, t3, t4, t5, t6, t7, t8, t9, t10] []
        (by simp) (by simp) hpw
  have hsplit : [t1, t2, t3, t4, t5, t6, t7, t8, t9, t10, t11, t12]
      = [t1, t2, t3, t4, t5, t6, t7, t8, t9, t10] ++ [t11, t12] := by simp
  have hkeep11 : rlPrune 60 t11 [t1, t2, t3, t4, t5, t6, t7, t8, t9, t10]
      = [t1, t2, t3, t4, t5, t6, t7, t8, t9, t10] :=
    rlPrune_keep_all fun t ht => by
      obtain ⟨ht1, _⟩ := hbnd t ht
      linarith
  have hrej : rlAllow 10 60 [t1, t2, t3, t4, t5, t6, t7, t8, t9, t10] t11
      = (false, [t1, t2, t3, t4, t5, t6, t7, t8, t9, t10]) := by
    have h := rlAllow_reject
      (show (10:ℕ) ≤ (rlPrune 60 t11 [t1,t2,t3,t4,t5,t6,t7,t8,t9,t10]).length by
        rw [hkeep11]
        simp)
    rwa [hkeep11] at h
  have hdrop : rlPrune 60 t12 [t1, t2, t3, t4, t5, t6, t7, t8, t9, t10]
      = rlPrune 60 t12 [t2, t3, t4, t5, t6, t7, t8, t9, t10] :=
    rlPrune_cons_drop (by linarith)
  have hlen12 : (rlPrune 60 t12 [t1, t2, t3, t4, t5, t6, t7, t8, t9, t10]).length
      < 10 := by
    rw [hdrop]
    have hle : (rlPrune 60 t12 [t2, t3, t4, t5, t6, t7, t8, t9, t10]).length
        ≤ ([t2, t3, t4, t5, t6, t7, t8, t9, t10] : List ℚ).length :=
      List.length_filter_le _ _
    simp only [List.length_cons, List.length_nil] at hle
    omega
  have hacc12 := rlAllow_accept hlen12
  rw [hsplit, rlRun_append, hrun10]
  simp [rlRun, hrej, hacc12]

/-- Witness for C2 at the concrete call times 0, 1, ..., 9, 10, 61. -/
theorem C2_sliding_window_witness :
    ((0:ℚ) ≤ 1 ∧ (10:ℚ) - 0 < 60 ∧ 60 < (61:ℚ) - 0) ∧
    (rlRun 10 60 [] [0, 1, 2, 3, 4, 5, 6, 7, 8, 9, 10, 61]).1
      = [true, true, true, true, true, true, true, true, true, true,
         false, true] :=
  ⟨⟨by norm_num, by norm_num, by norm_num⟩,
   (C2_sliding_window 0 1 2 3 4 5 6 7 8 9 10 61
      (by norm_num) (by norm_num) (by norm_num) (by norm_num) (by norm_num)
      (by norm_num) (by norm_num) (by norm_num) (by norm_num) (by norm_num)
      (by norm_num) (by norm_num) (by norm_num)).2⟩

lemma rlRun_invariant {maxCalls : ℕ} {period : ℚ} :
    ∀ (ts s : List ℚ),
      s.length ≤ maxCalls → List.Sorted (· ≤ ·) s →
      (∀ t ∈ s, ∀ x ∈ ts, t ≤ x) → List.Sorted (· ≤ ·) ts →
      (rlRun maxCalls period s ts).2.length ≤ maxCalls ∧
        List.Sorted (· ≤ ·) (rlRun maxCalls period s ts).2 := by
  intro ts
  induction ts with
  | nil => intro s hlen hsort _ _; exact ⟨hlen, hsort⟩
  | cons now rest ih =>
    intro s hlen hsort hcross hts
    have hsub : List.Sublist (rlPrune period now s) s := List.filter_sublist s
    have hplen : (rlPrune period now s).length ≤ s.length :=
      hsub.length_le
    have hpsort : List.Sorted (· ≤ ·) (rlPrune period now s) :=
      hsort.sublist hsub
    have hpmem : ∀ t ∈ rlPrune period now s, t ∈ s :=
      fun t ht => hsub.mem ht
    have hrest : List.Sorted (· ≤ ·) rest := hts.of_cons
    by_cases hc : maxCalls ≤ (rlPrune period now s).length
    · have hrej := rlAllow_reject hc
      simp only [rlRun, hrej]
      exact ih (rlPrune period now s) (by omega) hpsort
        (fun t ht x hx => hcross t (hpmem t ht) x (List.mem_cons_of_mem now hx))
        hrest
    · have hacc := rlAllow_accept (Nat.lt_of_not_le hc)
      simp only [rlRun, hacc]
      have hsort' : List.Sorted (· ≤ ·) (rlPrune period now s ++ [now]) := by
        rw [List.Sorted, List.pairwise_append]
        refine ⟨hpsort, List.pairwise_singleton _ _, ?_⟩
        intro t ht y hy
        have hy' : y = now := by simpa using hy
        rw [hy']
        exact hcross t (hpmem t ht) now (List.mem_cons_self now rest)
      refine ih (rlPrune period now s ++ [now]) ?_ hsort' ?_ hrest
      · simp only [List.length_append, List.length_singleton, List.length_cons,
          List.length_nil]
        omega
      · intro t ht x hx
        rcases List.mem_append.mp ht with h1 | h1
        · exact hcross t (hpmem t h1) x (List.mem_cons_of_mem now hx)
        · have ht' : t = now := by simpa using h1
          subst ht'
          exact List.rel_of_sorted_cons hts x hx

/-- Claim C10: starting from the empty per-identity sequence and feeding
monotonically non-decreasing call times through `allow`, the stored
timestamp sequence always has length at most `max_calls` and stays in
non-decreasing order. -/
theorem C10_state_invariant (maxCalls : ℕ) (period : ℚ) (ts : List ℚ)
    (hts : List.Sorted (· ≤ ·) ts) :
    (rlRun maxCalls period [] ts).2.length ≤ maxCalls ∧
      List.Sorted (· ≤ ·) (rlRun maxCalls period [] ts).2 :=
  rlRun_invariant ts [] (Nat.zero_le maxCalls) List.sorted_nil
    (fun t ht => absurd ht (List.not_mem_nil t)) hts

/-- Witness for C10 at concrete inputs. -/
theorem C10_state_invariant_witness :
    List.Sorted (· ≤ ·) ([0, 1, 2, 3] : List ℚ) ∧
      ((rlRun 2 60 [] [0, 1, 2, 3]).2.length ≤ 2 ∧
        List.Sorted (· ≤ ·) (rlRun 2 60 [] [0, 1, 2, 3]).2) := by
  have hs : List.Sorted (· ≤ ·) ([0, 1, 2, 3] : List ℚ) := by
    simp only [List.sorted_cons, List.mem_cons, List.not_mem_nil, or_false,
      List.sorted_nil, and_true]
    norm_num
  exact ⟨hs, C10_state_invariant 2 60 [0, 1, 2, 3] hs⟩
